import Mathlib

/-!
Verification of the RetinaTag backend core against its specification.

This file gives a shallow embedding of the parts of the code that the
specification talks about:

* the navigation resolver and record store of
  `backend/app/services/bscan_service.py` and
  `backend/app/services/labeling_service.py` (SQL queries over the `bscans`
  table are embedded as list filters followed by a sort and `head?`,
  mirroring `WHERE` + `ORDER BY` + `LIMIT 1` + `scalar_one_or_none`);
* the normalizer of `backend/app/utils/image_processing.py`
  (`normalize_percentile`, `normalize_fixed_window`), with numpy float
  arithmetic embedded as exact rational arithmetic and `np.percentile`
  embedded with its linear-interpolation definition;
* the preview cache service of `backend/app/services/preview_service.py`
  together with the file pipeline of `image_processing.py`
  (`load_16bit_image`, `save_preview_image`, `generate_preview`), over an
  explicit file-system state; the behavior of the external image library
  (decode success, encode success/failure point) is an oracle in the
  configuration.
-/

namespace RetinaTag

/-! ### Record store (`bscans` table) -/

/-- A row of the `bscans` table (`db/models.py`): database id, scan
identifier, index within the scan, source path, and label
(0 = unlabeled, 1 = healthy, 2 = unhealthy). -/
structure BScanRow where
  id : Nat
  scan_id : String
  bscan_index : Nat
  path : String
  label : Nat
  deriving DecidableEq, Repr

/-- The indices selected by `WHERE scan_id == sid AND bscan_index > cur`
in `BScanService.get_next_bscan_index`. -/
def rowsAbove (db : List BScanRow) (sid : String) (cur : Nat) : List Nat :=
  (db.filter fun r => r.scan_id == sid && decide (cur < r.bscan_index)).map
    fun r => r.bscan_index

/-- The indices selected by `WHERE scan_id == sid AND bscan_index < cur`
in `BScanService.get_prev_bscan_index`. -/
def rowsBelow (db : List BScanRow) (sid : String) (cur : Nat) : List Nat :=
  (db.filter fun r => r.scan_id == sid && decide (r.bscan_index < cur)).map
    fun r => r.bscan_index

/-- The indices selected by
`WHERE scan_id == sid AND bscan_index > cur AND label == 0`
in `BScanService.get_next_unlabeled_index`. -/
def rowsAboveUnlabeled (db : List BScanRow) (sid : String) (cur : Nat) : List Nat :=
  (db.filter fun r => r.scan_id == sid && decide (cur < r.bscan_index)
      && r.label == 0).map
    fun r => r.bscan_index

/-- `BScanService.get_next_bscan_index`: the filtered indices ordered
ascending, first row or none (`ORDER BY bscan_index ASC LIMIT 1`). -/
def get_next_bscan_index (db : List BScanRow) (sid : String) (cur : Nat) :
    Option Nat :=
  (List.insertionSort (· ≤ ·) (rowsAbove db sid cur)).head?

/-- `BScanService.get_prev_bscan_index`: the filtered indices ordered
descending, first row or none (`ORDER BY bscan_index DESC LIMIT 1`). -/
def get_prev_bscan_index (db : List BScanRow) (sid : String) (cur : Nat) :
    Option Nat :=
  (List.insertionSort (· ≥ ·) (rowsBelow db sid cur)).head?

/-- `BScanService.get_next_unlabeled_index`: as `get_next_bscan_index`
with the extra `label == 0` condition. -/
def get_next_unlabeled_index (db : List BScanRow) (sid : String) (cur : Nat) :
    Option Nat :=
  (List.insertionSort (· ≤ ·) (rowsAboveUnlabeled db sid cur)).head?

/-- All indices of a scan, in store order. -/
def scanIndices (db : List BScanRow) (sid : String) : List Nat :=
  (db.filter fun r => r.scan_id == sid).map fun r => r.bscan_index

/-- All unlabeled indices of a scan, in store order. -/
def scanUnlabeledIndices (db : List BScanRow) (sid : String) : List Nat :=
  (db.filter fun r => r.scan_id == sid && r.label == 0).map fun r => r.bscan_index

/-! #### Sorted-head helper lemmas -/

lemma head_sortAsc_eq_some (l : List Nat) (m : Nat) :
    (List.insertionSort (· ≤ ·) l).head? = some m ↔ m ∈ l ∧ ∀ k ∈ l, m ≤ k := by
  have hp := List.perm_insertionSort (· ≤ ·) l
  have hs := List.sorted_insertionSort (· ≤ ·) l
  cases hh : List.insertionSort (· ≤ ·) l with
  | nil =>
    rw [hh] at hp
    have hl : l = [] := hp.symm.eq_nil
    subst hl
    simp
  | cons a t =>
    rw [hh] at hp hs
    simp only [List.head?_cons, Option.some.injEq]
    constructor
    · rintro rfl
      refine ⟨hp.mem_iff.mp (List.mem_cons_self a t), ?_⟩
      intro k hk
      rcases List.mem_cons.mp (hp.mem_iff.mpr hk) with h | h
      · exact le_of_eq h.symm
      · exact List.rel_of_sorted_cons hs k h
    · rintro ⟨hm, hmin⟩
      have ha : a ∈ l := hp.mem_iff.mp (List.mem_cons_self a t)
      have h1 : m ≤ a := hmin a ha
      have h2 : a ≤ m := by
        rcases List.mem_cons.mp (hp.mem_iff.mpr hm) with h | h
        · exact le_of_eq h.symm
        · exact List.rel_of_sorted_cons hs m h
      exact le_antisymm h2 h1

lemma head_sortDesc_eq_some (l : List Nat) (m : Nat) :
    (List.insertionSort (· ≥ ·) l).head? = some m ↔ m ∈ l ∧ ∀ k ∈ l, k ≤ m := by
  have hp := List.perm_insertionSort (· ≥ ·) l
  have hs := List.sorted_insertionSort (· ≥ ·) l
  cases hh : List.insertionSort (· ≥ ·) l with
  | nil =>
    rw [hh] at hp
    have hl : l = [] := hp.symm.eq_nil
    subst hl
    simp
  | cons a t =>
    rw [hh] at hp hs
    simp only [List.head?_cons, Option.some.injEq]
    constructor
    · rintro rfl
      refine ⟨hp.mem_iff.mp (List.mem_cons_self a t), ?_⟩
      intro k hk
      rcases List.mem_cons.mp (hp.mem_iff.mpr hk) with h | h
      · exact le_of_eq h
      · exact List.rel_of_sorted_cons hs k h
    · rintro ⟨hm, hmin⟩
      have ha : a ∈ l := hp.mem_iff.mp (List.mem_cons_self a t)
      have h1 : a ≤ m := hmin a ha
      have h2 : m ≤ a := by
        rcases List.mem_cons.mp (hp.mem_iff.mpr hm) with h | h
        · exact le_of_eq h
        · exact List.rel_of_sorted_cons hs m h
      exact le_antisymm h1 h2

lemma head_sortAsc_eq_none (l : List Nat) :
    (List.insertionSort (· ≤ ·) l).head? = none ↔ l = [] := by
  have hp := List.perm_insertionSort (· ≤ ·) l
  rw [List.head?_eq_none_iff]
  constructor
  · intro h
    rw [h] at hp
    exact hp.symm.eq_nil
  · intro h
    subst h
    rfl

lemma head_sortDesc_eq_none (l : List Nat) :
    (List.insertionSort (· ≥ ·) l).head? = none ↔ l = [] := by
  have hp := List.perm_insertionSort (· ≥ ·) l
  rw [List.head?_eq_none_iff]
  constructor
  · intro h
    rw [h] at hp
    exact hp.symm.eq_nil
  · intro h
    subst h
    rfl

lemma mem_rowsAbove (db : List BScanRow) (sid : String) (cur m : Nat) :
    m ∈ rowsAbove db sid cur ↔ m ∈ scanIndices db sid ∧ cur < m := by
  simp only [rowsAbove, scanIndices, List.mem_map, List.mem_filter,
    Bool.and_eq_true, beq_iff_eq, decide_eq_true_eq]
  constructor
  · rintro ⟨r, ⟨hr, hsid, hlt⟩, rfl⟩
    exact ⟨⟨r, ⟨hr, hsid⟩, rfl⟩, hlt⟩
  · rintro ⟨⟨r, ⟨hr, hsid⟩, rfl⟩, hlt⟩
    exact ⟨r, ⟨hr, hsid, hlt⟩, rfl⟩

lemma mem_rowsBelow (db : List BScanRow) (sid : String) (cur m : Nat) :
    m ∈ rowsBelow db sid cur ↔ m ∈ scanIndices db sid ∧ m < cur := by
  simp only [rowsBelow, scanIndices, List.mem_map, List.mem_filter,
    Bool.and_eq_true, beq_iff_eq, decide_eq_true_eq]
  constructor
  · rintro ⟨r, ⟨hr, hsid, hlt⟩, rfl⟩
    exact ⟨⟨r, ⟨hr, hsid⟩, rfl⟩, hlt⟩
  · rintro ⟨⟨r, ⟨hr, hsid⟩, rfl⟩, hlt⟩
    exact ⟨r, ⟨hr, hsid, hlt⟩, rfl⟩

lemma mem_rowsAboveUnlabeled (db : List BScanRow) (sid : String) (cur m : Nat) :
    m ∈ rowsAboveUnlabeled db sid cur ↔
      m ∈ scanUnlabeledIndices db sid ∧ cur < m := by
  simp only [rowsAboveUnlabeled, scanUnlabeledIndices, List.mem_map,
    List.mem_filter, Bool.and_eq_true, beq_iff_eq, decide_eq_true_eq]
  constructor
  · rintro ⟨r, ⟨hr, ⟨hsid, hlt⟩, hlab⟩, rfl⟩
    exact ⟨⟨r, ⟨hr, hsid, hlab⟩, rfl⟩, hlt⟩
  · rintro ⟨⟨r, ⟨hr, hsid, hlab⟩, rfl⟩, hlt⟩
    exact ⟨r, ⟨hr, ⟨hsid, hlt⟩, hlab⟩, rfl⟩

/-- The scan used by the specification's navigation test vector:
indices [1, 2, 3, 5, 8] with labels [1, 0, 2, 0, 0]. -/
def exampleDB : List BScanRow :=
  [⟨1, "s", 1, "p1", 1⟩, ⟨2, "s", 2, "p2", 0⟩, ⟨3, "s", 3, "p3", 2⟩,
   ⟨4, "s", 5, "p5", 0⟩, ⟨5, "s", 8, "p8", 0⟩]

lemma prev_eq_some_iff (db : List BScanRow) (sid : String) (cur m : Nat) :
    get_prev_bscan_index db sid cur = some m ↔
      m ∈ scanIndices db sid ∧ m < cur ∧
        ∀ k ∈ scanIndices db sid, k < cur → k ≤ m := by
  rw [get_prev_bscan_index, head_sortDesc_eq_some]
  simp only [mem_rowsBelow]
  constructor
  · rintro ⟨⟨hm, hlt⟩, hmax⟩
    exact ⟨hm, hlt, fun k hk hkc => hmax k ⟨hk, hkc⟩⟩
  · rintro ⟨hm, hlt, hmax⟩
    exact ⟨⟨hm, hlt⟩, fun k hk => hmax k hk.1 hk.2⟩

lemma next_eq_some_iff (db : List BScanRow) (sid : String) (cur m : Nat) :
    get_next_bscan_index db sid cur = some m ↔
      m ∈ scanIndices db sid ∧ cur < m ∧
        ∀ k ∈ scanIndices db sid, cur < k → m ≤ k := by
  rw [get_next_bscan_index, head_sortAsc_eq_some]
  simp only [mem_rowsAbove]
  constructor
  · rintro ⟨⟨hm, hlt⟩, hmin⟩
    exact ⟨hm, hlt, fun k hk hkc => hmin k ⟨hk, hkc⟩⟩
  · rintro ⟨hm, hlt, hmin⟩
    exact ⟨⟨hm, hlt⟩, fun k hk => hmin k hk.1 hk.2⟩

lemma next_unlabeled_eq_some_iff (db : List BScanRow) (sid : String)
    (cur m : Nat) :
    get_next_unlabeled_index db sid cur = some m ↔
      m ∈ scanUnlabeledIndices db sid ∧ cur < m ∧
        ∀ k ∈ scanUnlabeledIndices db sid, cur < k → m ≤ k := by
  rw [get_next_unlabeled_index, head_sortAsc_eq_some]
  simp only [mem_rowsAboveUnlabeled]
  constructor
  · rintro ⟨⟨hm, hlt⟩, hmin⟩
    exact ⟨hm, hlt, fun k hk hkc => hmin k ⟨hk, hkc⟩⟩
  · rintro ⟨hm, hlt, hmin⟩
    exact ⟨⟨hm, hlt⟩, fun k hk => hmin k hk.1 hk.2⟩

lemma prev_eq_none_iff (db : List BScanRow) (sid : String) (cur : Nat) :
    get_prev_bscan_index db sid cur = none ↔
      ∀ k ∈ scanIndices db sid, ¬ k < cur := by
  rw [get_prev_bscan_index, head_sortDesc_eq_none, List.eq_nil_iff_forall_not_mem]
  constructor
  · intro h k hk hkc
    exact h k ((mem_rowsBelow db sid cur k).mpr ⟨hk, hkc⟩)
  · intro h k hk
    have hk2 := (mem_rowsBelow db sid cur k).mp hk
    exact h k hk2.1 hk2.2

lemma next_eq_none_iff (db : List BScanRow) (sid : String) (cur : Nat) :
    get_next_bscan_index db sid cur = none ↔
      ∀ k ∈ scanIndices db sid, ¬ cur < k := by
  rw [get_next_bscan_index, head_sortAsc_eq_none, List.eq_nil_iff_forall_not_mem]
  constructor
  · intro h k hk hkc
    exact h k ((mem_rowsAbove db sid cur k).mpr ⟨hk, hkc⟩)
  · intro h k hk
    have hk2 := (mem_rowsAbove db sid cur k).mp hk
    exact h k hk2.1 hk2.2

lemma next_unlabeled_eq_none_iff (db : List BScanRow) (sid : String) (cur : Nat) :
    get_next_unlabeled_index db sid cur = none ↔
      ∀ k ∈ scanUnlabeledIndices db sid, ¬ cur < k := by
  rw [get_next_unlabeled_index, head_sortAsc_eq_none,
    List.eq_nil_iff_forall_not_mem]
  constructor
  · intro h k hk hkc
    exact h k ((mem_rowsAboveUnlabeled db sid cur k).mpr ⟨hk, hkc⟩)
  · intro h k hk
    have hk2 := (mem_rowsAboveUnlabeled db sid cur k).mp hk
    exact h k hk2.1 hk2.2

/-- C4: over every scan's set of (index, label) records, `get_prev_bscan_index`
returns the largest index strictly below the current one (none if there is
none), `get_next_bscan_index` the smallest index strictly above (none if
there is none), and `get_next_unlabeled_index` the smallest index strictly
above whose label is 0, with no wrap-around (none if there is none); and on
indices [1,2,3,5,8] with labels [1,0,2,0,0] the seven example values of the
specification all hold. -/
theorem navigation_queries_correct :
    (∀ db sid cur m, get_prev_bscan_index db sid cur = some m ↔
        m ∈ scanIndices db sid ∧ m < cur ∧
          ∀ k ∈ scanIndices db sid, k < cur → k ≤ m) ∧
    (∀ db sid cur, get_prev_bscan_index db sid cur = none ↔
        ∀ k ∈ scanIndices db sid, ¬ k < cur) ∧
    (∀ db sid cur m, get_next_bscan_index db sid cur = some m ↔
        m ∈ scanIndices db sid ∧ cur < m ∧
          ∀ k ∈ scanIndices db sid, cur < k → m ≤ k) ∧
    (∀ db sid cur, get_next_bscan_index db sid cur = none ↔
        ∀ k ∈ scanIndices db sid, ¬ cur < k) ∧
    (∀ db sid cur m, get_next_unlabeled_index db sid cur = some m ↔
        m ∈ scanUnlabeledIndices db sid ∧ cur < m ∧
          ∀ k ∈ scanUnlabeledIndices db sid, cur < k → m ≤ k) ∧
    (∀ db sid cur, get_next_unlabeled_index db sid cur = none ↔
        ∀ k ∈ scanUnlabeledIndices db sid, ¬ cur < k) ∧
    get_prev_bscan_index exampleDB "s" 3 = some 2 ∧
    get_next_bscan_index exampleDB "s" 3 = some 5 ∧
    get_next_unlabeled_index exampleDB "s" 3 = some 5 ∧
    get_prev_bscan_index exampleDB "s" 1 = none ∧
    get_next_bscan_index exampleDB "s" 8 = none ∧
    get_next_unlabeled_index exampleDB "s" 8 = none ∧
    get_next_unlabeled_index exampleDB "s" 1 = some 2 :=
  ⟨prev_eq_some_iff, prev_eq_none_iff, next_eq_some_iff, next_eq_none_iff,
   next_unlabeled_eq_some_iff, next_unlabeled_eq_none_iff,
   by decide, by decide, by decide, by decide, by decide, by decide, by decide⟩

/-- C5 counterexample: current index 4 does not correspond to any record of
the example scan (indices [1,2,3,5,8]), yet none of the three queries
returns none: the next query returns 5, the previous query returns 3, and
the next-unlabeled query returns 5. -/
theorem navigation_nonexistent_index_counterexample :
    (∀ r ∈ exampleDB, r.scan_id = "s" → r.bscan_index ≠ 4) ∧
    get_next_bscan_index exampleDB "s" 4 = some 5 ∧
    get_prev_bscan_index exampleDB "s" 4 = some 3 ∧
    get_next_unlabeled_index exampleDB "s" 4 = some 5 := by
  refine ⟨?_, by decide, by decide, by decide⟩
  decide

/-- C5 amended: for a current index that does not correspond to any record
of the scan, the three navigation queries still do not raise — they are the
same total boundary lookups as for recorded indices — but they return none
only when no qualifying record exists on the relevant side, not merely
because the current index is absent. -/
theorem navigation_nonexistent_index_amended (db : List BScanRow)
    (sid : String) (cur : Nat)
    (_hnone : ∀ r ∈ db, r.scan_id = sid → r.bscan_index ≠ cur) :
    (get_prev_bscan_index db sid cur = none ↔
        ∀ k ∈ scanIndices db sid, ¬ k < cur) ∧
    (get_next_bscan_index db sid cur = none ↔
        ∀ k ∈ scanIndices db sid, ¬ cur < k) ∧
    (get_next_unlabeled_index db sid cur = none ↔
        ∀ k ∈ scanUnlabeledIndices db sid, ¬ cur < k) :=
  ⟨prev_eq_none_iff db sid cur, next_eq_none_iff db sid cur,
   next_unlabeled_eq_none_iff db sid cur⟩

/-- Closed instance of the amended C5 statement at the example scan, with
the hypothesis that current index 4 is not a record discharged concretely. -/
theorem navigation_nonexistent_index_amended_witness :
    (get_prev_bscan_index exampleDB "s" 4 = none ↔
        ∀ k ∈ scanIndices exampleDB "s", ¬ k < 4) ∧
    (get_next_bscan_index exampleDB "s" 4 = none ↔
        ∀ k ∈ scanIndices exampleDB "s", ¬ 4 < k) ∧
    (get_next_unlabeled_index exampleDB "s" 4 = none ↔
        ∀ k ∈ scanUnlabeledIndices exampleDB "s", ¬ 4 < k) :=
  navigation_nonexistent_index_amended exampleDB "s" 4 (by decide)

/-! ### Store write operations (`create_bscan`, `update_label`) -/

/-- `BScanService.get_bscan_by_id`: `SELECT ... WHERE id == bid`, one row or
none. -/
def get_bscan_by_id (db : List BScanRow) (bid : Nat) : Option BScanRow :=
  (db.filter fun r => r.id == bid).head?

/-- `BScanService.get_bscan_by_index`: `SELECT ... WHERE scan_id == sid AND
bscan_index == idx`, one row or none. -/
def get_bscan_by_index (db : List BScanRow) (sid : String) (idx : Nat) :
    Option BScanRow :=
  (db.filter fun r => r.scan_id == sid && r.bscan_index == idx).head?

/-- Errors raised by the store write operations (`ValueError` in the
source, distinguished by message). -/
inductive StoreError
  | alreadyExists
  | invalidLabel
  | notFound
  deriving DecidableEq, Repr

/-- `BScanService.create_bscan`: reject the insert if a row with the same
(scan_id, bscan_index) pair exists, otherwise add a row with label 0.
`new_id` stands for the database-assigned primary key. -/
def create_bscan (db : List BScanRow) (new_id : Nat) (sid : String)
    (idx : Nat) (path : String) : Except StoreError BScanRow × List BScanRow :=
  match get_bscan_by_index db sid idx with
  | some _ => (.error .alreadyExists, db)
  | none =>
    let r : BScanRow := ⟨new_id, sid, idx, path, 0⟩
    (.ok r, db ++ [r])

/-- `LabelingService.update_label`: reject labels outside {1, 2}, reject an
unknown id, otherwise set the row's label. -/
def update_label (db : List BScanRow) (bid : Nat) (new_label : Nat) :
    Except StoreError BScanRow × List BScanRow :=
  if !(new_label == 1 || new_label == 2) then (.error .invalidLabel, db)
  else
    match get_bscan_by_id db bid with
    | none => (.error .notFound, db)
    | some r =>
      let r2 : BScanRow := { r with label := new_label }
      (.ok r2, db.map fun x => if x.id == bid then { x with label := new_label } else x)

/-- C10: creating a B-scan for a (scan_id, bscan_index) pair that already
has a record fails and leaves the store unchanged; creating one for a fresh
pair succeeds and the new record carries label 0 (unlabeled), so the pair
uniquely identifies a record and every slice enters the store unlabeled.
The explicit label-update operation only ever writes the values 1 or 2 it
is given and rejects everything else. -/
theorem create_bscan_unique_and_unlabeled (db : List BScanRow) (new_id : Nat)
    (sid : String) (idx : Nat) (path : String) :
    ((∃ r ∈ db, r.scan_id = sid ∧ r.bscan_index = idx) →
        create_bscan db new_id sid idx path = (.error .alreadyExists, db)) ∧
    ((∀ r ∈ db, ¬ (r.scan_id = sid ∧ r.bscan_index = idx)) →
        create_bscan db new_id sid idx path =
          (.ok ⟨new_id, sid, idx, path, 0⟩, db ++ [⟨new_id, sid, idx, path, 0⟩]) ∧
          (∀ r ∈ (create_bscan db new_id sid idx path).2,
              r.scan_id = sid → r.bscan_index = idx → r.label = 0)) ∧
    (∀ lbl, lbl ≠ 1 → lbl ≠ 2 →
        ∀ bid, update_label db bid lbl = (.error .invalidLabel, db)) := by
  have hmem : ∀ m : Option BScanRow,
      get_bscan_by_index db sid idx = m →
      (m.isSome ↔ ∃ r ∈ db, r.scan_id = sid ∧ r.bscan_index = idx) := by
    intro m hm
    subst hm
    rw [get_bscan_by_index]
    cases hh : (db.filter fun r => r.scan_id == sid && r.bscan_index == idx).head? with
    | none =>
      simp only [Option.isSome_none, Bool.false_eq_true, false_iff]
      rintro ⟨r, hr, hsid, hidx⟩
      have : r ∈ (db.filter fun r => r.scan_id == sid && r.bscan_index == idx) := by
        rw [List.mem_filter]
        exact ⟨hr, by simp [hsid, hidx]⟩
      rw [List.head?_eq_none_iff] at hh
      rw [hh] at this
      cases this
    | some a =>
      simp only [Option.isSome_some, true_iff]
      have ha : a ∈ (db.filter fun r => r.scan_id == sid && r.bscan_index == idx) :=
        List.mem_of_mem_head? hh
      rw [List.mem_filter] at ha
      refine ⟨a, ha.1, ?_⟩
      have := ha.2
      simp only [Bool.and_eq_true, beq_iff_eq] at this
      exact this
  refine ⟨?_, ?_, ?_⟩
  · intro hex
    have h := hmem (get_bscan_by_index db sid idx) rfl
    rw [create_bscan]
    cases hh : get_bscan_by_index db sid idx with
    | none =>
      rw [hh] at h
      simp only [Option.isSome_none] at h
      exact absurd (h.mpr hex) (by simp)
    | some r => rfl
  · intro hfresh
    have h := hmem (get_bscan_by_index db sid idx) rfl
    have hnone : get_bscan_by_index db sid idx = none := by
      cases hh : get_bscan_by_index db sid idx with
      | none => rfl
      | some r =>
        rw [hh] at h
        simp only [Option.isSome_some, true_iff] at h
        obtain ⟨r, hr, hsid, hidx⟩ := h
        exact absurd ⟨hsid, hidx⟩ (hfresh r hr)
    constructor
    · rw [create_bscan, hnone]
    · intro r hr hsid hidx
      rw [create_bscan, hnone] at hr
      simp only [List.mem_append, List.mem_singleton] at hr
      rcases hr with hr | hr
      · exact absurd ⟨hsid, hidx⟩ (hfresh r hr)
      · rw [hr]
  · intro lbl h1 h2 bid
    rw [update_label]
    have : (lbl == 1 || lbl == 2) = false := by
      simp [h1, h2]
    rw [this]
    rfl

/-- Closed instance of C10: a duplicate (scan, index) insert is rejected
with the store unchanged, a fresh insert appends a record with label 0, and
an update with label 7 is rejected. -/
theorem create_bscan_unique_and_unlabeled_witness :
    create_bscan exampleDB 9 "s" 3 "q" = (.error .alreadyExists, exampleDB) ∧
    create_bscan exampleDB 9 "s" 4 "q" =
      (.ok ⟨9, "s", 4, "q", 0⟩, exampleDB ++ [⟨9, "s", 4, "q", 0⟩]) ∧
    update_label exampleDB 2 7 = (.error .invalidLabel, exampleDB) := by
  have h := create_bscan_unique_and_unlabeled exampleDB 9 "s" 3 "q"
  have h4 := create_bscan_unique_and_unlabeled exampleDB 9 "s" 4 "q"
  refine ⟨h.1 ⟨⟨3, "s", 3, "p3", 2⟩, by decide, by decide⟩, ?_, ?_⟩
  · exact (h4.2.1 (by decide)).1
  · exact h.2.2 7 (by decide) (by decide) 2

/-! ### Normalizer (`image_processing.py`)

numpy float64 arithmetic is embedded as exact rational arithmetic. An image
is a list of rows of unsigned samples. -/

/-- An in-memory image: rows of unsigned integer samples (the source
targets 16-bit depth, but `normalize_percentile` and
`normalize_fixed_window` accept any depth). -/
abbrev Image := List (List Nat)

/-- `np.full(img.shape, c)`: a constant image of the same shape. -/
def np_full (img : Image) (c : Nat) : Image :=
  img.map (List.map fun _ => c)

/-- `np.clip(x, lo, hi)` on one sample. -/
def np_clip (x lo hi : ℚ) : ℚ :=
  min (max x lo) hi

/-- The floor of a rational, written so that the kernel can evaluate it on
concrete inputs (the integer division of core Lean is Euclidean, which on a
positive denominator is the floor). -/
def ratFloor (q : ℚ) : ℤ :=
  q.num / q.den

lemma ratFloor_eq_floor (q : ℚ) : ratFloor q = ⌊q⌋ :=
  Rat.floor_def.symm

/-- `.astype(np.uint8)` on one sample: the float-to-integer cast truncates
toward zero; the values it is applied to have been clipped to [0, 255], and
on nonnegative values truncation toward zero is the floor. -/
def astype_uint8 (x : ℚ) : Nat :=
  (ratFloor x).toNat

/-- `np.percentile(xs, q)` with the default linear-interpolation method:
sort the flattened samples, take the virtual index `h = (n - 1) * q / 100`,
and interpolate linearly between the neighbouring order statistics. -/
def npPercentile (xs : List Nat) (q : ℚ) : ℚ :=
  let s := List.insertionSort (· ≤ ·) xs
  let n := s.length
  let h : ℚ := ((n : ℚ) - 1) * q / 100
  let k : Nat := (ratFloor h).toNat
  let lo : ℚ := (s.getD k 0 : Nat)
  let hi : ℚ := (s.getD (k + 1) (s.getD k 0) : Nat)
  lo + (h - (k : ℚ)) * (hi - lo)

/-- The per-sample mapping of the non-degenerate branch shared by both
normalization methods:
`np.clip((v - p_low) / (p_high - p_low) * 255, 0, 255).astype(np.uint8)`. -/
def normalizeSample (v p_low p_high : ℚ) : Nat :=
  astype_uint8 (np_clip ((v - p_low) / (p_high - p_low) * 255) 0 255)

/-- `normalize_percentile(img_array, low_percentile, high_percentile)`. -/
def normalize_percentile (img : Image) (low_percentile high_percentile : ℚ) :
    Image :=
  let p_low := npPercentile img.flatten low_percentile
  let p_high := npPercentile img.flatten high_percentile
  if p_high - p_low = 0 then np_full img 128
  else img.map (List.map fun v : Nat => normalizeSample (v : ℚ) p_low p_high)

/-- The subtraction `img_array - window_min` of the source: `img_array`
has dtype uint16 (`load_16bit_image` forces it) and `window_min` is a
Python int, so for a window minimum representable in uint16 the
subtraction is performed in uint16 and wraps modulo 2^16 for samples
below `window_min` (only the float `p_low` of the percentile method
promotes the array to float64 and subtracts exactly). -/
def sub_uint16 (v : Nat) (window_min : ℤ) : ℤ :=
  (((v % 65536 : Nat) : ℤ) - window_min) % 65536

/-- `normalize_fixed_window(img_array, window_min, window_max)`: the
numerator wraps in uint16 (`sub_uint16`), the denominator
`window_max - window_min` is exact Python int arithmetic, and the
quotient is float division. -/
def normalize_fixed_window (img : Image) (window_min window_max : ℤ) : Image :=
  if window_max - window_min = 0 then np_full img 128
  else img.map (List.map fun v : Nat =>
    astype_uint8 (np_clip (((sub_uint16 v window_min : ℤ) : ℚ)
      / ((window_max - window_min : ℤ) : ℚ) * 255) 0 255))

/-- The per-sample mapping as the specification words it: the clipped
scaled value rounded to the nearest integer (this follows the text of the
spec, to be compared against `normalizeSample` from the source). -/
def specRoundedSample (v p_low p_high : ℚ) : Nat :=
  (round (np_clip ((v - p_low) / (p_high - p_low) * 255) 0 255)).toNat

/-- The linear-interpolation percentile of a constant sample set is that
constant, for any percentile rank in [0, 100]. -/
lemma npPercentile_const (xs : List Nat) (c : Nat) (q : ℚ)
    (hne : xs ≠ []) (h0 : 0 ≤ q) (h1 : q ≤ 100) (hc : ∀ v ∈ xs, v = c) :
    npPercentile xs q = (c : ℚ) := by
  have hperm := List.perm_insertionSort (· ≤ ·) xs
  set s := List.insertionSort (· ≤ ·) xs with hsdef
  have hall : ∀ v ∈ s, v = c := fun v hv => hc v (hperm.mem_iff.mp hv)
  have hn : 1 ≤ s.length := by
    rw [hperm.length_eq]
    exact List.length_pos.mpr hne
  set n := s.length with hndef
  set h : ℚ := ((n : ℚ) - 1) * q / 100 with hhdef
  have hnn : (1 : ℚ) ≤ (n : ℚ) := by exact_mod_cast hn
  have hh0 : 0 ≤ h := by
    rw [hhdef]
    apply div_nonneg _ (by norm_num)
    exact mul_nonneg (by linarith) h0
  have hh1 : h ≤ (n : ℚ) - 1 := by
    rw [hhdef, div_le_iff₀ (by norm_num : (0 : ℚ) < 100)]
    have := mul_le_mul_of_nonneg_left h1 (by linarith : (0 : ℚ) ≤ (n : ℚ) - 1)
    linarith
  have hfl : ⌊h⌋ ≤ (n : ℤ) - 1 := by
    have : ⌊h⌋ ≤ ⌊(n : ℚ) - 1⌋ := Int.floor_le_floor hh1
    have heq : ⌊(n : ℚ) - 1⌋ = (n : ℤ) - 1 := by
      rw [show ((n : ℚ) - 1) = (((n : ℤ) - 1 : ℤ) : ℚ) by push_cast; ring]
      exact Int.floor_intCast _
    omega
  have hk : (ratFloor h).toNat < n := by
    rw [ratFloor_eq_floor]
    omega
  have hgk : s.getD (ratFloor h).toNat 0 = c := by
    rw [List.getD_eq_getElem s 0 hk]
    exact hall _ (s.getElem_mem hk)
  have hgk1 : s.getD ((ratFloor h).toNat + 1) (s.getD (ratFloor h).toNat 0) = c := by
    by_cases hlt : (ratFloor h).toNat + 1 < n
    · rw [List.getD_eq_getElem s _ hlt]
      exact hall _ (s.getElem_mem hlt)
    · rw [List.getD_eq_default s _ (by omega)]
      exact hgk
  have hfinal : npPercentile xs q =
      ((s.getD (ratFloor h).toNat 0 : Nat) : ℚ) +
        (h - (((ratFloor h).toNat : Nat) : ℚ)) *
          (((s.getD ((ratFloor h).toNat + 1) (s.getD (ratFloor h).toNat 0) : Nat) : ℚ) -
            ((s.getD (ratFloor h).toNat 0 : Nat) : ℚ)) := rfl
  rw [hfinal, hgk1, hgk]
  ring

/-- C6: when all samples of a (nonempty) image are equal, the percentile
method — for any percentile bounds in [0, 100] — and the fixed-window
method with equal window bounds both return a uniform 128 image of the
same shape without raising or dividing (the degenerate guard fires before
the division); more generally, the 128 image is returned whenever the two
computed percentile values coincide, and whenever window max equals window
min. -/
theorem normalize_constant_image_uniform_128 (img : Image) (c : Nat)
    (low high : ℚ) (w : ℤ)
    (hne : img.flatten ≠ []) (hl0 : 0 ≤ low) (hl1 : low ≤ 100)
    (hh0 : 0 ≤ high) (hh1 : high ≤ 100)
    (hc : ∀ v ∈ img.flatten, v = c) :
    normalize_percentile img low high = np_full img 128 ∧
    normalize_fixed_window img w w = np_full img 128 ∧
    (∀ (img2 : Image) (low2 high2 : ℚ),
        npPercentile img2.flatten high2 = npPercentile img2.flatten low2 →
        normalize_percentile img2 low2 high2 = np_full img2 128) ∧
    (∀ (img3 : Image) (a : ℤ), normalize_fixed_window img3 a a = np_full img3 128) := by
  have hgen : ∀ (img2 : Image) (low2 high2 : ℚ),
      npPercentile img2.flatten high2 = npPercentile img2.flatten low2 →
      normalize_percentile img2 low2 high2 = np_full img2 128 := by
    intro img2 low2 high2 heq
    unfold normalize_percentile
    rw [if_pos (sub_eq_zero_of_eq heq)]
  have hwin : ∀ (img3 : Image) (a : ℤ), normalize_fixed_window img3 a a = np_full img3 128 := by
    intro img3 a
    unfold normalize_fixed_window
    rw [if_pos (sub_self a)]
  refine ⟨?_, hwin img w, hgen, hwin⟩
  exact hgen img low high
    ((npPercentile_const img.flatten c high hne hh0 hh1 hc).trans
      (npPercentile_const img.flatten c low hne hl0 hl1 hc).symm)

/-- Closed instance of C6 at the constant image [[7, 7], [7, 7]] with the
service's default percentile bounds 1.0 and 99.0 and window bounds 5 = 5. -/
theorem normalize_constant_image_uniform_128_witness :
    normalize_percentile [[7, 7], [7, 7]] 1 99 = np_full [[7, 7], [7, 7]] 128 ∧
    normalize_fixed_window [[7, 7], [7, 7]] 5 5 = np_full [[7, 7], [7, 7]] 128 ∧
    (∀ (img2 : Image) (low2 high2 : ℚ),
        npPercentile img2.flatten high2 = npPercentile img2.flatten low2 →
        normalize_percentile img2 low2 high2 = np_full img2 128) ∧
    (∀ (img3 : Image) (a : ℤ), normalize_fixed_window img3 a a = np_full img3 128) :=
  normalize_constant_image_uniform_128 [[7, 7], [7, 7]] 7 1 99 5
    (by decide) (by norm_num) (by norm_num) (by norm_num) (by norm_num)
    (by decide)

/-- C7 counterexample: the claimed per-sample formula differs from the
code on two counts. Rounding: for the image [[2]] under the fixed window
[0, 765] the scaled clipped value is 2/3, which the code truncates to 0
(`astype(np.uint8)`) while the specification's round-to-nearest mapping
gives 1. Wraparound: for the image [[0]] under the window [10, 20] the
uint16 subtraction `0 - 10` wraps to 65526 and the code outputs 255,
while the specification's formula `clip((0 - 10) / 10 * 255, 0, 255)`
gives 0 under rounding and truncation alike. -/
theorem normalize_formula_counterexample :
    normalize_fixed_window [[2]] 0 765 = [[0]] ∧
    specRoundedSample 2 0 765 = 1 ∧ (0 : Nat) ≠ 1 ∧
    normalize_fixed_window [[0]] 10 20 = [[255]] ∧
    specRoundedSample 0 10 20 = 0 ∧ (255 : Nat) ≠ 0 := by
  refine ⟨by with_unfolding_all decide, ?_, by decide,
    by with_unfolding_all decide, ?_, by decide⟩
  · norm_num [specRoundedSample, np_clip, round_eq]
  · norm_num [specRoundedSample, np_clip, round_eq]

/-- C7 amended: for a non-degenerate image (the two computed percentile
values differ), every output sample of the percentile method equals
`clip((v - p_low) / (p_high - p_low) * 255, 0, 255)` truncated toward zero
(the floor of that clipped nonnegative value) — not rounded to the nearest
integer — with `p_low`, `p_high` the linear-interpolation percentiles of
the flattened sample set. The fixed-window method, for differing bounds
with a window minimum representable in uint16, computes the same truncated
formula except that its numerator is the uint16 subtraction
`(v - window_min) mod 2^16`, which wraps for samples below `window_min`
instead of going negative. -/
theorem normalize_nondegenerate_formula (img : Image) (low high : ℚ)
    (hq : npPercentile img.flatten high ≠ npPercentile img.flatten low) :
    normalize_percentile img low high =
      img.map (List.map fun v : Nat =>
        (⌊np_clip (((v : ℚ) - npPercentile img.flatten low) /
            (npPercentile img.flatten high - npPercentile img.flatten low) * 255)
            0 255⌋).toNat) ∧
    ∀ wmin wmax : ℤ, wmax ≠ wmin → 0 ≤ wmin → wmin < 65536 →
      normalize_fixed_window img wmin wmax =
        img.map (List.map fun v : Nat =>
          (⌊np_clip ((((((v % 65536 : Nat) : ℤ) - wmin) % 65536 : ℤ) : ℚ)
              / ((wmax - wmin : ℤ) : ℚ) * 255) 0 255⌋).toNat) := by
  constructor
  · unfold normalize_percentile
    rw [if_neg (by simpa [sub_eq_zero] using hq)]
    simp only [normalizeSample, astype_uint8, ratFloor_eq_floor]
  · intro wmin wmax hw hw0 hw1
    unfold normalize_fixed_window
    rw [if_neg (by simpa [sub_eq_zero] using hw)]
    simp only [sub_uint16, astype_uint8, ratFloor_eq_floor]

/-- Closed instance of the amended C7 statement at the image [[0], [100]]
with percentile bounds 0 and 100 and the fixed window [10, 20] (whose
minimum makes the uint16 subtraction wrap on the 0 sample). -/
theorem normalize_nondegenerate_formula_witness :
    normalize_percentile [[0], [100]] 0 100 =
      [[0], [100]].map (List.map fun v : Nat =>
        (⌊np_clip (((v : ℚ) - npPercentile ([[0], [100]] : Image).flatten 0) /
            (npPercentile ([[0], [100]] : Image).flatten 100 -
              npPercentile ([[0], [100]] : Image).flatten 0) * 255) 0 255⌋).toNat) ∧
    normalize_fixed_window [[0], [100]] 10 20 =
      [[0], [100]].map (List.map fun v : Nat =>
        (⌊np_clip ((((((v % 65536 : Nat) : ℤ) - 10) % 65536 : ℤ) : ℚ)
            / (((20 : ℤ) - 10 : ℤ) : ℚ) * 255) 0 255⌋).toNat) :=
  ⟨(normalize_nondegenerate_formula [[0], [100]] 0 100
      (by with_unfolding_all decide)).1,
   (normalize_nondegenerate_formula [[0], [100]] 0 100
      (by with_unfolding_all decide)).2 10 20
    (by decide) (by decide) (by decide)⟩

/-! ### Preview cache service (`preview_service.py`) over an explicit
file-system state

A path is its list of components. The file system holds a set of directory
paths and a set of files; each file carries a flag saying whether its
content is complete (the underlying encoder writes straight to the target
path, so a failure during the write leaves an incomplete file, which still
exists for `Path.exists()`). `gens` instruments the number of successful
`load_16bit_image` calls, i.e. of generations actually started on the
source. The behavior of the external image library is given by oracles in
the configuration: whether the source decodes, and whether/where the
encode call fails. -/

/-- A file-system path, as its list of components. -/
abbrev FsPath := List String

/-- Outcome of one call into the underlying encoder (`img.save`):
it succeeds, it raises before opening the target file, or it raises after
opening the target file mid-write. -/
inductive EncMode
  | ok
  | failBeforeWrite
  | failDuringWrite
  deriving DecidableEq, Repr

/-- The preview service configuration (`settings` read at call time), plus
the oracles standing for the external image library. -/
structure Config where
  cache_dir : FsPath
  preview_format : String
  preview_quality : Nat
  normalization_method : String
  decode_ok : FsPath → Bool
  enc : EncMode

/-- File-system state plus the generation-count instrumentation. -/
structure PState where
  dirs : List FsPath
  files : List (FsPath × Bool)
  gens : Nat
  deriving DecidableEq, Repr

/-- `Path.exists()` for a file (true also for an incomplete file). -/
def fileExists (st : PState) (p : FsPath) : Bool :=
  st.files.any fun f => f.1 == p

/-- `Path.exists()` for a directory. -/
def dirExists (st : PState) (d : FsPath) : Bool :=
  st.dirs.any fun e => e == d

/-- The nonempty ancestors of a path, the path itself included. -/
def ancestors (p : FsPath) : List FsPath :=
  (List.range p.length).map fun k => p.take (k + 1)

/-- Record one directory as existing. -/
def addDir (ds : List FsPath) (d : FsPath) : List FsPath :=
  if d ∈ ds then ds else ds ++ [d]

/-- `Path.mkdir(parents=True, exist_ok=True)`. -/
def mkdirp (st : PState) (p : FsPath) : PState :=
  { st with dirs := (ancestors p).foldl addDir st.dirs }

/-- Write or overwrite a file entry. -/
def putFile (files : List (FsPath × Bool)) (p : FsPath) (complete : Bool) :
    List (FsPath × Bool) :=
  (files.filter fun f => !(f.1 == p)) ++ [(p, complete)]

/-- The error taxonomy of the generation pipeline (`FileNotFoundError` and
the `ValueError`s of `image_processing.py`, told apart by their origin). -/
inductive PrevError
  | sourceNotFound
  | decodeFailure
  | unsupportedMethod
  | unsupportedFormat
  | encodeFailure
  deriving DecidableEq, Repr

/-- The pure path computation inside `PreviewService.get_preview_path`:
`cache_dir / scan_id / (str(index) + "." + format)`. -/
def resolvePath (cfg : Config) (sid : String) (idx : Nat) : FsPath :=
  cfg.cache_dir ++ [sid, toString idx ++ "." ++ cfg.preview_format]

/-- `PreviewService.get_preview_path(scan_id, bscan_index)`: computes the
target path, after creating the per-scan cache directory
(`scan_cache_dir.mkdir(parents=True, exist_ok=True)`). -/
def get_preview_path (cfg : Config) (st : PState) (sid : String) (idx : Nat) :
    FsPath × PState :=
  (resolvePath cfg sid idx, mkdirp st (cfg.cache_dir ++ [sid]))

/-- `load_16bit_image(image_path)`: missing file raises
`FileNotFoundError`; an undecodable file raises `ValueError`; a successful
call reads the source (counted by `gens`). -/
def load_16bit_image (cfg : Config) (st : PState) (source : FsPath) :
    PState × Option PrevError :=
  if fileExists st source = false then (st, some .sourceNotFound)
  else if cfg.decode_ok source = false then (st, some .decodeFailure)
  else ({ st with gens := st.gens + 1 }, none)

/-- The method dispatch of `convert_16bit_to_8bit`. -/
def method_supported (m : String) : Bool :=
  m == "percentile" || m == "fixed_window"

/-- `str.lower()` on the ASCII format names, written over the character
list so that concrete instances evaluate. -/
def strLower (s : String) : String :=
  String.mk (s.data.map Char.toLower)

/-- The format dispatch of `save_preview_image` (after `format.lower()`). -/
def format_supported (f : String) : Bool :=
  f == "webp" || f == "png" || f == "jpeg" || f == "jpg"

/-- `save_preview_image(img_array, output_path, format, quality)`: creates
the parent directory, rejects an unsupported format before any write, then
hands the target path to the encoder, which writes the complete file on
success, leaves nothing if it fails before opening, and leaves an
incomplete file at the target if it fails during the write. -/
def save_preview_image (cfg : Config) (st : PState) (output_path : FsPath) :
    PState × Option PrevError :=
  let st1 := mkdirp st output_path.dropLast
  if format_supported (strLower cfg.preview_format) = false then
    (st1, some .unsupportedFormat)
  else
    match cfg.enc with
    | .ok => ({ st1 with files := putFile st1.files output_path true }, none)
    | .failBeforeWrite => (st1, some .encodeFailure)
    | .failDuringWrite =>
      ({ st1 with files := putFile st1.files output_path false },
        some .encodeFailure)

/-- `generate_preview(source_path, output_path, ...)`: load, convert
(method dispatch), save. -/
def generate_preview (cfg : Config) (st : PState) (source output_path : FsPath) :
    PState × Except PrevError FsPath :=
  match load_16bit_image cfg st source with
  | (st1, some e) => (st1, .error e)
  | (st1, none) =>
    if method_supported cfg.normalization_method = false then
      (st1, .error .unsupportedMethod)
    else
      match save_preview_image cfg st1 output_path with
      | (st2, some e) => (st2, .error e)
      | (st2, none) => (st2, .ok output_path)

/-- `PreviewService.generate_preview_for_bscan(source_path, scan_id,
bscan_index, force_regenerate)`: resolve the target (with its mkdir side
effect), return it on a cache hit, check the source exists, then run the
generation pipeline. -/
def generate_preview_for_bscan (cfg : Config) (st : PState) (source : FsPath)
    (sid : String) (idx : Nat) (force : Bool) :
    PState × Except PrevError FsPath :=
  let pp := get_preview_path cfg st sid idx
  if fileExists pp.2 pp.1 && !force then (pp.2, .ok pp.1)
  else if fileExists pp.2 source = false then (pp.2, .error .sourceNotFound)
  else generate_preview cfg pp.2 source pp.1

/-- `PreviewService.get_or_generate_preview(source_path, scan_id,
bscan_index)`: `generate_preview_for_bscan` with `force_regenerate=False`. -/
def get_or_generate_preview (cfg : Config) (st : PState) (source : FsPath)
    (sid : String) (idx : Nat) : PState × Except PrevError FsPath :=
  generate_preview_for_bscan cfg st source sid idx false

/-- Whether a file lies directly in a directory. -/
def inDir (d : FsPath) (p : FsPath) : Bool :=
  p.dropLast == d

/-- The file name (last component) of a path. -/
def baseName (p : FsPath) : String :=
  (p.getLast?).getD ""

/-- String suffix test, written over the character list so that concrete
instances evaluate. -/
def strEndsWith (s suffix : String) : Bool :=
  suffix.data.length ≤ s.data.length &&
    s.data.drop (s.data.length - suffix.data.length) == suffix.data

/-- Whether a file name matches the glob pattern `*.{fmt}`. -/
def matchesFmt (fmt : String) (name : String) : Bool :=
  strEndsWith name ("." ++ fmt)

/-- `PreviewService.clear_cache_for_scan(scan_id)`: 0 if the scan cache
directory does not exist; otherwise unlink every direct child matching
`*.{format}` counting them, then remove the directory if nothing is left
in it. -/
def clear_cache_for_scan (cfg : Config) (st : PState) (sid : String) :
    Nat × PState :=
  let d := cfg.cache_dir ++ [sid]
  if dirExists st d = false then (0, st)
  else
    let doomed := st.files.filter fun f =>
      inDir d f.1 && matchesFmt cfg.preview_format (baseName f.1)
    let remaining := st.files.filter fun f =>
      !(inDir d f.1 && matchesFmt cfg.preview_format (baseName f.1))
    let emptyNow := (remaining.all fun f => !inDir d f.1)
      && (st.dirs.all fun d2 => !(d2.dropLast == d))
    (doomed.length,
      { st with
        files := remaining,
        dirs := if emptyNow then st.dirs.filter (fun d2 => !(d2 == d)) else st.dirs })

-- Decidable equality for generation results.
deriving instance DecidableEq for Except

/-! #### Helper lemmas about the file-system state -/

lemma fileExists_mkdirp (st : PState) (d p : FsPath) :
    fileExists (mkdirp st d) p = fileExists st p := rfl

lemma mkdirp_files (st : PState) (d : FsPath) : (mkdirp st d).files = st.files := rfl

lemma mkdirp_gens (st : PState) (d : FsPath) : (mkdirp st d).gens = st.gens := rfl

lemma mem_addDir_of_mem {ds : List FsPath} {x : FsPath} (y : FsPath)
    (h : x ∈ ds) : x ∈ addDir ds y := by
  unfold addDir
  split
  · exact h
  · exact List.mem_append_left _ h

lemma mem_addDir_self (ds : List FsPath) (y : FsPath) : y ∈ addDir ds y := by
  unfold addDir
  split
  · assumption
  · simp

lemma mem_foldl_addDir_of_mem (l : List FsPath) {ds : List FsPath} {x : FsPath}
    (h : x ∈ ds) : x ∈ l.foldl addDir ds := by
  induction l generalizing ds with
  | nil => exact h
  | cons a t ih => exact ih (mem_addDir_of_mem a h)

lemma mem_foldl_addDir_of_mem_list {l : List FsPath} (ds : List FsPath)
    {x : FsPath} (h : x ∈ l) : x ∈ l.foldl addDir ds := by
  induction l generalizing ds with
  | nil => cases h
  | cons a t ih =>
    rcases List.mem_cons.mp h with rfl | h2
    · exact mem_foldl_addDir_of_mem t (mem_addDir_self ds x)
    · exact ih _ h2

lemma foldl_addDir_of_all_mem {l ds : List FsPath} (h : ∀ x ∈ l, x ∈ ds) :
    l.foldl addDir ds = ds := by
  induction l with
  | nil => rfl
  | cons a t ih =>
    have ha : addDir ds a = ds := by
      unfold addDir
      rw [if_pos (h a (List.mem_cons_self a t))]
    rw [List.foldl_cons, ha]
    exact ih fun x hx => h x (List.mem_cons_of_mem a hx)

lemma mkdirp_idem (st : PState) (p : FsPath) :
    mkdirp (mkdirp st p) p = mkdirp st p := by
  unfold mkdirp
  have h : (ancestors p).foldl addDir ((ancestors p).foldl addDir st.dirs)
      = (ancestors p).foldl addDir st.dirs :=
    foldl_addDir_of_all_mem fun x hx => mem_foldl_addDir_of_mem_list st.dirs hx
  rw [h]

lemma self_mem_ancestors (p : FsPath) (h : p ≠ []) : p ∈ ancestors p := by
  unfold ancestors
  have hlen : 0 < p.length := List.length_pos.mpr h
  refine List.mem_map.mpr ⟨p.length - 1, List.mem_range.mpr (by omega), ?_⟩
  rw [show p.length - 1 + 1 = p.length by omega]
  exact List.take_length ..

lemma dirExists_mkdirp_self (st : PState) (p : FsPath) (h : p ≠ []) :
    dirExists (mkdirp st p) p = true := by
  unfold dirExists mkdirp
  rw [List.any_eq_true]
  exact ⟨p, mem_foldl_addDir_of_mem_list st.dirs (self_mem_ancestors p h), by simp⟩

/-- C8 counterexample: with the default cache root on an empty file
system, the path returned by `get_preview_path` is the specified
`cache_root / scan_id / index.format`, but resolving alone already mutates
the file system: the per-scan directory (with its ancestors) is created by
the very same call, and no separate ensure-scan-dir operation exists in
the service. -/
theorem resolve_side_effect_counterexample :
    (get_preview_path
        ⟨["data", "cache", "previews"], "webp", 85, "percentile",
          fun _ => true, .ok⟩
        ⟨[], [], 0⟩ "scan1" 3).1
      = ["data", "cache", "previews", "scan1", "3.webp"] ∧
    (get_preview_path
        ⟨["data", "cache", "previews"], "webp", 85, "percentile",
          fun _ => true, .ok⟩
        ⟨[], [], 0⟩ "scan1" 3).2.dirs
      = [["data"], ["data", "cache"], ["data", "cache", "previews"],
         ["data", "cache", "previews", "scan1"]] := by
  constructor
  · decide
  · decide

/-- C8 amended: `get_preview_path` is deterministic — it always returns
`cache_root / scan_id / index.format`, independent of the file-system
state — and it creates or modifies no file; but it is not side-effect
free: every call creates the per-scan cache directory (and its ancestors),
idempotently, and there is no separate ensure-scan-dir operation. -/
theorem resolve_deterministic_with_mkdir (cfg : Config) (st : PState)
    (sid : String) (idx : Nat) :
    (get_preview_path cfg st sid idx).1 = resolvePath cfg sid idx ∧
    (∀ st2 : PState,
        (get_preview_path cfg st2 sid idx).1 = (get_preview_path cfg st sid idx).1) ∧
    (get_preview_path cfg st sid idx).2.files = st.files ∧
    (get_preview_path cfg st sid idx).2.gens = st.gens ∧
    (get_preview_path cfg st sid idx).2.dirs
      = (ancestors (cfg.cache_dir ++ [sid])).foldl addDir st.dirs ∧
    dirExists (get_preview_path cfg st sid idx).2 (cfg.cache_dir ++ [sid]) = true ∧
    get_preview_path cfg (get_preview_path cfg st sid idx).2 sid idx
      = get_preview_path cfg st sid idx := by
  refine ⟨rfl, fun st2 => rfl, rfl, rfl, rfl, ?_, ?_⟩
  · exact dirExists_mkdirp_self st (cfg.cache_dir ++ [sid]) (by simp)
  · unfold get_preview_path
    rw [mkdirp_idem]

lemma any_putFile_self (fs : List (FsPath × Bool)) (p : FsPath) (b : Bool) :
    ((putFile fs p b).any fun f => f.1 == p) = true := by
  simp [putFile]

/-- C1: the get-or-generate contract. On a cache hit the resolved path is
returned at once with no read of the source (the call succeeds even when
the source is absent, and neither files nor the generation count change).
On a miss with an absent source the call fails with the source-not-found
error and creates no cache file. On a miss with a present, decodable
source under a supported configuration, two sequential calls both return
the resolved path while the underlying load/normalize/encode pipeline runs
exactly once. -/
theorem get_or_generate_contract (cfg : Config) (st : PState) (source : FsPath)
    (sid : String) (idx : Nat) :
    (fileExists st (resolvePath cfg sid idx) = true →
      get_or_generate_preview cfg st source sid idx
        = (mkdirp st (cfg.cache_dir ++ [sid]), .ok (resolvePath cfg sid idx))) ∧
    (fileExists st (resolvePath cfg sid idx) = false →
      fileExists st source = false →
      get_or_generate_preview cfg st source sid idx
        = (mkdirp st (cfg.cache_dir ++ [sid]), .error .sourceNotFound)) ∧
    (fileExists st (resolvePath cfg sid idx) = false →
      fileExists st source = true →
      cfg.decode_ok source = true →
      method_supported cfg.normalization_method = true →
      format_supported (strLower cfg.preview_format) = true →
      cfg.enc = .ok →
      (get_or_generate_preview cfg st source sid idx).2
          = .ok (resolvePath cfg sid idx) ∧
      (get_or_generate_preview cfg st source sid idx).1.gens = st.gens + 1 ∧
      (get_or_generate_preview cfg
          (get_or_generate_preview cfg st source sid idx).1 source sid idx).2
          = .ok (resolvePath cfg sid idx) ∧
      (get_or_generate_preview cfg
          (get_or_generate_preview cfg st source sid idx).1 source sid idx).1.gens
          = st.gens + 1) := by
  refine ⟨?_, ?_, ?_⟩
  · intro hhit
    simp [get_or_generate_preview, generate_preview_for_bscan, get_preview_path,
      fileExists_mkdirp, hhit]
  · intro hmiss hsrc
    simp [get_or_generate_preview, generate_preview_for_bscan, get_preview_path,
      fileExists_mkdirp, hmiss, hsrc]
  · intro hmiss hsrc hdec hm hf henc
    have h2 : (get_or_generate_preview cfg st source sid idx).2
        = .ok (resolvePath cfg sid idx) := by
      simp only [get_or_generate_preview, generate_preview_for_bscan,
        get_preview_path, generate_preview, load_16bit_image, save_preview_image,
        fileExists_mkdirp, hmiss, hsrc, hdec, hm, hf, henc]
      simp
    have hgens : (get_or_generate_preview cfg st source sid idx).1.gens
        = st.gens + 1 := by
      simp only [get_or_generate_preview, generate_preview_for_bscan,
        get_preview_path, generate_preview, load_16bit_image, save_preview_image,
        fileExists_mkdirp, hmiss, hsrc, hdec, hm, hf, henc]
      simp [mkdirp]
    have hfiles : (get_or_generate_preview cfg st source sid idx).1.files
        = putFile st.files (resolvePath cfg sid idx) true := by
      simp only [get_or_generate_preview, generate_preview_for_bscan,
        get_preview_path, generate_preview, load_16bit_image, save_preview_image,
        fileExists_mkdirp, hmiss, hsrc, hdec, hm, hf, henc]
      simp [mkdirp]
    set st1 := (get_or_generate_preview cfg st source sid idx).1 with hst1def
    have hhit2 : fileExists st1 (resolvePath cfg sid idx) = true := by
      have hfe : fileExists st1 (resolvePath cfg sid idx)
          = (st1.files.any fun f => f.1 == resolvePath cfg sid idx) := rfl
      rw [hfe, hfiles]
      exact any_putFile_self st.files (resolvePath cfg sid idx) true
    have h3 : (get_or_generate_preview cfg st1 source sid idx).2
        = .ok (resolvePath cfg sid idx) := by
      simp [get_or_generate_preview, generate_preview_for_bscan, get_preview_path,
        fileExists_mkdirp, hhit2]
    have h4 : (get_or_generate_preview cfg st1 source sid idx).1.gens
        = st1.gens := by
      simp [get_or_generate_preview, generate_preview_for_bscan, get_preview_path,
        fileExists_mkdirp, hhit2, mkdirp_gens]
    exact ⟨h2, hgens, h3, h4.trans hgens⟩

/-- Closed instance of C1: cache hit with an absent source, miss with an
absent source, and the sequential single-generation run, each at a
concrete configuration and file-system state. -/
theorem get_or_generate_contract_witness :
    (get_or_generate_preview
        ⟨["data", "cache", "previews"], "webp", 85, "percentile",
          fun _ => true, .ok⟩
        ⟨[], [(["data", "cache", "previews", "s1", "3.webp"], true)], 0⟩
        ["missing", "img.png"] "s1" 3).2
      = .ok ["data", "cache", "previews", "s1", "3.webp"] ∧
    (get_or_generate_preview
        ⟨["data", "cache", "previews"], "webp", 85, "percentile",
          fun _ => true, .ok⟩
        ⟨[], [], 0⟩ ["missing", "img.png"] "s1" 3)
      = (mkdirp ⟨[], [], 0⟩ ["data", "cache", "previews", "s1"],
          .error .sourceNotFound) ∧
    (get_or_generate_preview
        ⟨["data", "cache", "previews"], "webp", 85, "percentile",
          fun _ => true, .ok⟩
        ⟨[], [(["src", "img.png"], true)], 0⟩ ["src", "img.png"] "s1" 3).1.gens
      = 1 ∧
    (get_or_generate_preview
        ⟨["data", "cache", "previews"], "webp", 85, "percentile",
          fun _ => true, .ok⟩
        (get_or_generate_preview
          ⟨["data", "cache", "previews"], "webp", 85, "percentile",
            fun _ => true, .ok⟩
          ⟨[], [(["src", "img.png"], true)], 0⟩ ["src", "img.png"] "s1" 3).1
        ["src", "img.png"] "s1" 3).1.gens
      = 1 := by
  have h1 := (get_or_generate_contract
      ⟨["data", "cache", "previews"], "webp", 85, "percentile",
        fun _ => true, .ok⟩
      ⟨[], [(["data", "cache", "previews", "s1", "3.webp"], true)], 0⟩
      ["missing", "img.png"] "s1" 3).1 (by decide)
  have h2 := (get_or_generate_contract
      ⟨["data", "cache", "previews"], "webp", 85, "percentile",
        fun _ => true, .ok⟩
      ⟨[], [], 0⟩ ["missing", "img.png"] "s1" 3).2.1 (by decide) (by decide)
  have h3 := (get_or_generate_contract
      ⟨["data", "cache", "previews"], "webp", 85, "percentile",
        fun _ => true, .ok⟩
      ⟨[], [(["src", "img.png"], true)], 0⟩ ["src", "img.png"] "s1" 3).2.2
    (by decide) (by decide) (by decide) (by decide) (by decide) (by decide)
  refine ⟨?_, ?_, ?_, ?_⟩
  · rw [h1]
    decide
  · rw [h2]
    decide
  · rw [h3.2.1]
  · rw [h3.2.2.2]

lemma fileExists_eq_of_files_eq {a b : PState} (p : FsPath)
    (h : a.files = b.files) : fileExists a p = fileExists b p := by
  simp [fileExists, h]

/-- The only step of the whole pipeline that touches the file set is the
final encoder call: a run leaves the files unchanged, or writes the
complete artifact and succeeds, or — only when the encoder fails mid-write
— leaves an incomplete file at the resolved path. -/
lemma files_after_get_or_generate (cfg : Config) (st : PState)
    (source : FsPath) (sid : String) (idx : Nat) :
    ((get_or_generate_preview cfg st source sid idx).1.files = st.files) ∨
    ((get_or_generate_preview cfg st source sid idx).1.files
        = putFile st.files (resolvePath cfg sid idx) true ∧
      (get_or_generate_preview cfg st source sid idx).2
        = .ok (resolvePath cfg sid idx)) ∨
    ((get_or_generate_preview cfg st source sid idx).1.files
        = putFile st.files (resolvePath cfg sid idx) false ∧
      cfg.enc = EncMode.failDuringWrite) := by
  cases hhit : fileExists st (resolvePath cfg sid idx) with
  | true =>
    left
    simp [get_or_generate_preview, generate_preview_for_bscan, get_preview_path,
      fileExists_mkdirp, hhit, mkdirp_files]
  | false =>
    cases hsrc : fileExists st source with
    | false =>
      left
      simp [get_or_generate_preview, generate_preview_for_bscan, get_preview_path,
        fileExists_mkdirp, hhit, hsrc, mkdirp_files]
    | true =>
      cases hdec : cfg.decode_ok source with
      | false =>
        left
        simp [get_or_generate_preview, generate_preview_for_bscan, get_preview_path,
          generate_preview, load_16bit_image, fileExists_mkdirp, hhit, hsrc, hdec,
          mkdirp_files]
      | true =>
        cases hm : method_supported cfg.normalization_method with
        | false =>
          left
          simp [get_or_generate_preview, generate_preview_for_bscan,
            get_preview_path, generate_preview, load_16bit_image,
            fileExists_mkdirp, hhit, hsrc, hdec, hm, mkdirp_files]
        | true =>
          cases hf : format_supported (strLower cfg.preview_format) with
          | false =>
            left
            simp only [get_or_generate_preview, generate_preview_for_bscan,
              get_preview_path, generate_preview, load_16bit_image,
              save_preview_image, fileExists_mkdirp, hhit, hsrc, hdec, hm, hf]
            simp [mkdirp]
          | true =>
            cases henc : cfg.enc with
            | ok =>
              right; left
              constructor <;>
              · simp only [get_or_generate_preview, generate_preview_for_bscan,
                  get_preview_path, generate_preview, load_16bit_image,
                  save_preview_image, fileExists_mkdirp, hhit, hsrc, hdec, hm, hf,
                  henc]
                simp [mkdirp]
            | failBeforeWrite =>
              left
              simp only [get_or_generate_preview, generate_preview_for_bscan,
                get_preview_path, generate_preview, load_16bit_image,
                save_preview_image, fileExists_mkdirp, hhit, hsrc, hdec, hm, hf,
                henc]
              simp [mkdirp]
            | failDuringWrite =>
              right; right
              refine ⟨?_, rfl⟩
              simp only [get_or_generate_preview, generate_preview_for_bscan,
                get_preview_path, generate_preview, load_16bit_image,
                save_preview_image, fileExists_mkdirp, hhit, hsrc, hdec, hm, hf,
                henc]
              simp [mkdirp]

/-- C3 counterexample: the encoder writes straight to the resolved path
(no write-to-temp-then-rename exists in the code), so when the encode call
fails mid-write on a previously-uncached key, the call errors yet an
(incomplete) file now exists at the resolved path — contradicting the
claim that the file still does not exist after a failed generation. -/
theorem atomic_write_counterexample :
    fileExists ⟨[], [(["src", "img.png"], true)], 0⟩
      (resolvePath
        ⟨["data", "cache", "previews"], "webp", 85, "percentile",
          fun _ => true, .failDuringWrite⟩ "s1" 3) = false ∧
    (get_or_generate_preview
        ⟨["data", "cache", "previews"], "webp", 85, "percentile",
          fun _ => true, .failDuringWrite⟩
        ⟨[], [(["src", "img.png"], true)], 0⟩ ["src", "img.png"] "s1" 3).2
      = .error .encodeFailure ∧
    fileExists
      (get_or_generate_preview
        ⟨["data", "cache", "previews"], "webp", 85, "percentile",
          fun _ => true, .failDuringWrite⟩
        ⟨[], [(["src", "img.png"], true)], 0⟩ ["src", "img.png"] "s1" 3).1
      (resolvePath
        ⟨["data", "cache", "previews"], "webp", 85, "percentile",
          fun _ => true, .failDuringWrite⟩ "s1" 3) = true := by
  decide

/-- C3 amended: a generation that fails anywhere before the encoder starts
writing — source missing, decode failure, unsupported method or format, or
an encoder error raised before the target is opened — leaves no file at
the resolved path of a previously-uncached key; but the encoder writes
directly to the final path, so an encoder failure during the write leaves
an incomplete file there (which a later existence check takes for a cache
hit). -/
theorem no_partial_file_on_early_failure (cfg : Config) (st : PState)
    (source : FsPath) (sid : String) (idx : Nat)
    (hmiss : fileExists st (resolvePath cfg sid idx) = false) :
    (∀ e, (get_or_generate_preview cfg st source sid idx).2 = .error e →
        cfg.enc ≠ EncMode.failDuringWrite →
        fileExists (get_or_generate_preview cfg st source sid idx).1
          (resolvePath cfg sid idx) = false) ∧
    (cfg.enc = EncMode.failDuringWrite → fileExists st source = true →
      cfg.decode_ok source = true →
      method_supported cfg.normalization_method = true →
      format_supported (strLower cfg.preview_format) = true →
      (get_or_generate_preview cfg st source sid idx).2
          = .error .encodeFailure ∧
      fileExists (get_or_generate_preview cfg st source sid idx).1
        (resolvePath cfg sid idx) = true ∧
      ((get_or_generate_preview cfg st source sid idx).1.files.any
          fun f => f.1 == resolvePath cfg sid idx && f.2 == false) = true) := by
  constructor
  · intro e herr hne
    rcases files_after_get_or_generate cfg st source sid idx with hfe | ⟨_, hok⟩ | ⟨_, hd⟩
    · rw [fileExists_eq_of_files_eq (b := st) _ hfe]
      exact hmiss
    · rw [herr] at hok
      cases hok
    · exact absurd hd hne
  · intro henc hsrc hdec hm hf
    have herr : (get_or_generate_preview cfg st source sid idx).2
        = .error .encodeFailure := by
      simp only [get_or_generate_preview, generate_preview_for_bscan,
        get_preview_path, generate_preview, load_16bit_image, save_preview_image,
        fileExists_mkdirp, hmiss, hsrc, hdec, hm, hf, henc]
      simp
    have hfiles : (get_or_generate_preview cfg st source sid idx).1.files
        = putFile st.files (resolvePath cfg sid idx) false := by
      simp only [get_or_generate_preview, generate_preview_for_bscan,
        get_preview_path, generate_preview, load_16bit_image, save_preview_image,
        fileExists_mkdirp, hmiss, hsrc, hdec, hm, hf, henc]
      simp [mkdirp]
    refine ⟨herr, ?_, ?_⟩
    · have hfe : fileExists (get_or_generate_preview cfg st source sid idx).1
          (resolvePath cfg sid idx)
          = ((get_or_generate_preview cfg st source sid idx).1.files.any
              fun f => f.1 == resolvePath cfg sid idx) := rfl
      rw [hfe, hfiles]
      exact any_putFile_self st.files (resolvePath cfg sid idx) false
    · rw [hfiles]
      simp [putFile]

/-- Closed instance of the amended C3 statement at a concrete state, both
for an early failure (absent source, encoder untouched) and for the
mid-write encoder failure that leaves the incomplete file. -/
theorem no_partial_file_on_early_failure_witness :
    fileExists
      (get_or_generate_preview
        ⟨["data", "cache", "previews"], "webp", 85, "percentile",
          fun _ => true, .ok⟩
        ⟨[], [], 0⟩ ["missing", "img.png"] "s1" 3).1
      (resolvePath
        ⟨["data", "cache", "previews"], "webp", 85, "percentile",
          fun _ => true, .ok⟩ "s1" 3) = false ∧
    fileExists
      (get_or_generate_preview
        ⟨["data", "cache", "previews"], "webp", 85, "percentile",
          fun _ => true, .failDuringWrite⟩
        ⟨[], [(["src", "img.png"], true)], 0⟩ ["src", "img.png"] "s1" 3).1
      (resolvePath
        ⟨["data", "cache", "previews"], "webp", 85, "percentile",
          fun _ => true, .failDuringWrite⟩ "s1" 3) = true := by
  constructor
  · exact (no_partial_file_on_early_failure
        ⟨["data", "cache", "previews"], "webp", 85, "percentile",
          fun _ => true, .ok⟩
        ⟨[], [], 0⟩ ["missing", "img.png"] "s1" 3 (by decide)).1
      .sourceNotFound (by decide) (by decide)
  · exact ((no_partial_file_on_early_failure
        ⟨["data", "cache", "previews"], "webp", 85, "percentile",
          fun _ => true, .failDuringWrite⟩
        ⟨[], [(["src", "img.png"], true)], 0⟩ ["src", "img.png"] "s1" 3
        (by decide)).2 rfl (by decide) (by decide) (by decide) (by decide)).2.1

lemma any_eq_self_filter_ne (l : List FsPath) (d : FsPath) :
    ((l.filter fun x => !(x == d)).any fun e => e == d) = false := by
  rw [Bool.eq_false_iff]
  intro h
  rw [List.any_eq_true] at h
  obtain ⟨x, hx, hxd⟩ := h
  have hne := (List.mem_filter.mp hx).2
  rw [beq_iff_eq] at hxd
  subst hxd
  simp at hne

/-- Calling `clear_cache_for_scan` right after a first call always reports
zero deletions: every glob match of the scan directory was unlinked by the
first call. -/
lemma clear_cache_twice_aux (cfg : Config) (st : PState) (sid : String) :
    (clear_cache_for_scan cfg (clear_cache_for_scan cfg st sid).2 sid).1 = 0 := by
  cases hdir : dirExists st (cfg.cache_dir ++ [sid]) with
  | false =>
    simp [clear_cache_for_scan, hdir]
  | true =>
    have hst1 : (clear_cache_for_scan cfg st sid).2
        = { st with
            files := st.files.filter fun f =>
              !(inDir (cfg.cache_dir ++ [sid]) f.1 &&
                matchesFmt cfg.preview_format (baseName f.1)),
            dirs :=
              if ((st.files.filter fun f =>
                    !(inDir (cfg.cache_dir ++ [sid]) f.1 &&
                      matchesFmt cfg.preview_format (baseName f.1))).all fun f =>
                  !inDir (cfg.cache_dir ++ [sid]) f.1)
                  && (st.dirs.all fun d2 => !(d2.dropLast == cfg.cache_dir ++ [sid]))
              then st.dirs.filter fun d2 => !(d2 == cfg.cache_dir ++ [sid])
              else st.dirs } := by
      simp [clear_cache_for_scan, hdir]
    set st1 := (clear_cache_for_scan cfg st sid).2 with hst1d
    by_cases hemp :
        (((st.files.filter fun f =>
            !(inDir (cfg.cache_dir ++ [sid]) f.1 &&
              matchesFmt cfg.preview_format (baseName f.1))).all fun f =>
          !inDir (cfg.cache_dir ++ [sid]) f.1)
          && (st.dirs.all fun d2 => !(d2.dropLast == cfg.cache_dir ++ [sid]))) = true
    · have hdir2 : dirExists st1 (cfg.cache_dir ++ [sid]) = false := by
        rw [hst1]
        simp only [dirExists, hemp, if_pos]
        exact any_eq_self_filter_ne st.dirs (cfg.cache_dir ++ [sid])
      simp [clear_cache_for_scan, hdir2]
    · have hdir2 : dirExists st1 (cfg.cache_dir ++ [sid])
          = dirExists st (cfg.cache_dir ++ [sid]) := by
        rw [hst1]
        simp only [dirExists, if_neg hemp]
      have hfilter : (st1.files.filter fun f =>
          inDir (cfg.cache_dir ++ [sid]) f.1 &&
            matchesFmt cfg.preview_format (baseName f.1)) = [] := by
        rw [hst1]
        simp only []
        rw [List.filter_filter]
        have hz : ∀ f ∈ st.files,
            ((inDir (cfg.cache_dir ++ [sid]) f.1 &&
                matchesFmt cfg.preview_format (baseName f.1))
              && !(inDir (cfg.cache_dir ++ [sid]) f.1 &&
                matchesFmt cfg.preview_format (baseName f.1)))
            = false := by
          intro f hf
          exact Bool.and_not_self _
        rw [List.filter_congr (q := fun _ => false) hz]
        exact List.filter_false st.files
      simp [clear_cache_for_scan, hdir2, hdir, hfilter]

/-- C9: clearing the cache of a scan deletes every artifact of that scan
(a file directly in the scan directory; under the invariant that the
service only ever stores files with the configured format extension there,
that is every file of the directory), removes the then-empty scan
directory, and returns exactly the number of files removed; when the scan
directory does not exist it returns 0 without error and changes nothing,
and calling it twice in a row always returns 0 the second time. -/
theorem invalidate_scan_contract (cfg : Config) (st : PState) (sid : String) :
    (dirExists st (cfg.cache_dir ++ [sid]) = false →
      clear_cache_for_scan cfg st sid = (0, st)) ∧
    (dirExists st (cfg.cache_dir ++ [sid]) = true →
      (∀ f ∈ st.files, inDir (cfg.cache_dir ++ [sid]) f.1 = true →
        matchesFmt cfg.preview_format (baseName f.1) = true) →
      (∀ d2 ∈ st.dirs, ¬ d2.dropLast = cfg.cache_dir ++ [sid]) →
      (clear_cache_for_scan cfg st sid).1
          = (st.files.filter fun f => inDir (cfg.cache_dir ++ [sid]) f.1).length ∧
      (clear_cache_for_scan cfg st sid).2.files
          = (st.files.filter fun f => !inDir (cfg.cache_dir ++ [sid]) f.1) ∧
      (clear_cache_for_scan cfg st sid).2.dirs
          = (st.dirs.filter fun d2 => !(d2 == cfg.cache_dir ++ [sid])) ∧
      (clear_cache_for_scan cfg st sid).2.gens = st.gens) ∧
    (clear_cache_for_scan cfg (clear_cache_for_scan cfg st sid).2 sid).1 = 0 := by
  refine ⟨?_, ?_, clear_cache_twice_aux cfg st sid⟩
  · intro hdir
    simp [clear_cache_for_scan, hdir]
  · intro hdir hpat hnosub
    have hc : ∀ f ∈ st.files,
        (inDir (cfg.cache_dir ++ [sid]) f.1 &&
          matchesFmt cfg.preview_format (baseName f.1))
        = inDir (cfg.cache_dir ++ [sid]) f.1 := by
      intro f hf
      cases hin : inDir (cfg.cache_dir ++ [sid]) f.1 with
      | false => simp
      | true => simp [hpat f hf hin]
    have hcneg : ∀ f ∈ st.files,
        (!(inDir (cfg.cache_dir ++ [sid]) f.1 &&
          matchesFmt cfg.preview_format (baseName f.1)))
        = !(inDir (cfg.cache_dir ++ [sid]) f.1) := by
      intro f hf
      rw [hc f hf]
    have hdoom : (st.files.filter fun f =>
        inDir (cfg.cache_dir ++ [sid]) f.1 &&
          matchesFmt cfg.preview_format (baseName f.1))
        = st.files.filter fun f => inDir (cfg.cache_dir ++ [sid]) f.1 :=
      List.filter_congr hc
    have hrem : (st.files.filter fun f =>
        !(inDir (cfg.cache_dir ++ [sid]) f.1 &&
          matchesFmt cfg.preview_format (baseName f.1)))
        = st.files.filter fun f => !inDir (cfg.cache_dir ++ [sid]) f.1 :=
      List.filter_congr hcneg
    have hempty : ((st.files.filter fun f =>
        !(inDir (cfg.cache_dir ++ [sid]) f.1 &&
          matchesFmt cfg.preview_format (baseName f.1))).all fun f =>
        !inDir (cfg.cache_dir ++ [sid]) f.1) = true := by
      rw [hrem, List.all_eq_true]
      intro f hf
      exact (List.mem_filter.mp hf).2
    have hdirs_all : (st.dirs.all fun d2 =>
        !(d2.dropLast == cfg.cache_dir ++ [sid])) = true := by
      rw [List.all_eq_true]
      intro d2 hd2
      simpa using hnosub d2 hd2
    have hcond : (((st.files.filter fun f =>
        !(inDir (cfg.cache_dir ++ [sid]) f.1 &&
          matchesFmt cfg.preview_format (baseName f.1))).all fun f =>
        !inDir (cfg.cache_dir ++ [sid]) f.1)
        && (st.dirs.all fun d2 => !(d2.dropLast == cfg.cache_dir ++ [sid])))
        = true := by
      rw [hempty, hdirs_all]
      rfl
    refine ⟨?_, ?_, ?_, ?_⟩
    · unfold clear_cache_for_scan
      rw [if_neg (by simp [hdir])]
      exact congrArg List.length hdoom
    · unfold clear_cache_for_scan
      rw [if_neg (by simp [hdir])]
      exact hrem
    · unfold clear_cache_for_scan
      rw [if_neg (by simp [hdir])]
      show (if (((st.files.filter fun f =>
          !(inDir (cfg.cache_dir ++ [sid]) f.1 &&
            matchesFmt cfg.preview_format (baseName f.1))).all fun f =>
          !inDir (cfg.cache_dir ++ [sid]) f.1)
          && (st.dirs.all fun d2 => !(d2.dropLast == cfg.cache_dir ++ [sid])))
          = true
        then st.dirs.filter fun d2 => !(d2 == cfg.cache_dir ++ [sid])
        else st.dirs)
        = st.dirs.filter fun d2 => !(d2 == cfg.cache_dir ++ [sid])
      rw [if_pos hcond]
    · unfold clear_cache_for_scan
      rw [if_neg (by simp [hdir])]

/-- Closed instance of C9: a scan directory holding two artifacts is
cleared with count 2 and removed; the scan with no cache directory reports
0; the immediate second call reports 0. -/
theorem invalidate_scan_contract_witness :
    clear_cache_for_scan
        ⟨["cache", "previews"], "webp", 85, "percentile", fun _ => true, .ok⟩
        ⟨[["cache"], ["cache", "previews"], ["cache", "previews", "s1"]],
          [(["cache", "previews", "s1", "0.webp"], true),
           (["cache", "previews", "s1", "1.webp"], true)], 0⟩ "other"
      = (0, ⟨[["cache"], ["cache", "previews"], ["cache", "previews", "s1"]],
          [(["cache", "previews", "s1", "0.webp"], true),
           (["cache", "previews", "s1", "1.webp"], true)], 0⟩) ∧
    (clear_cache_for_scan
        ⟨["cache", "previews"], "webp", 85, "percentile", fun _ => true, .ok⟩
        ⟨[["cache"], ["cache", "previews"], ["cache", "previews", "s1"]],
          [(["cache", "previews", "s1", "0.webp"], true),
           (["cache", "previews", "s1", "1.webp"], true)], 0⟩ "s1").1 = 2 ∧
    (clear_cache_for_scan
        ⟨["cache", "previews"], "webp", 85, "percentile", fun _ => true, .ok⟩
        ⟨[["cache"], ["cache", "previews"], ["cache", "previews", "s1"]],
          [(["cache", "previews", "s1", "0.webp"], true),
           (["cache", "previews", "s1", "1.webp"], true)], 0⟩ "s1").2.dirs
      = [["cache"], ["cache", "previews"]] ∧
    (clear_cache_for_scan
        ⟨["cache", "previews"], "webp", 85, "percentile", fun _ => true, .ok⟩
        (clear_cache_for_scan
          ⟨["cache", "previews"], "webp", 85, "percentile", fun _ => true, .ok⟩
          ⟨[["cache"], ["cache", "previews"], ["cache", "previews", "s1"]],
            [(["cache", "previews", "s1", "0.webp"], true),
             (["cache", "previews", "s1", "1.webp"], true)], 0⟩ "s1").2 "s1").1
      = 0 := by
  have h := invalidate_scan_contract
    ⟨["cache", "previews"], "webp", 85, "percentile", fun _ => true, .ok⟩
    ⟨[["cache"], ["cache", "previews"], ["cache", "previews", "s1"]],
      [(["cache", "previews", "s1", "0.webp"], true),
       (["cache", "previews", "s1", "1.webp"], true)], 0⟩ "s1"
  have hother := (invalidate_scan_contract
    ⟨["cache", "previews"], "webp", 85, "percentile", fun _ => true, .ok⟩
    ⟨[["cache"], ["cache", "previews"], ["cache", "previews", "s1"]],
      [(["cache", "previews", "s1", "0.webp"], true),
       (["cache", "previews", "s1", "1.webp"], true)], 0⟩ "other").1 (by decide)
  have hmain := h.2.1 (by decide) (by decide) (by decide)
  refine ⟨hother, ?_, ?_, h.2.2⟩
  · rw [hmain.1]
    decide
  · rw [hmain.2.2.1]
    decide

/-! ### Concurrency: two unsynchronized `get_or_generate` calls for one key

`generate_preview_for_bscan` runs in two phases — the cache-existence
check, then (on a miss) the whole generation pipeline — and the source
contains no lock, so the phases of two concurrent requests for the same
key interleave freely. The machine below is that two-phase structure for
two request threads on one fixed, previously-uncached key with a valid
source and configuration: program counter 0 is "about to run the existence
check", 1 is "missed, about to generate", 2 is "returned". The generate
phase publishes the cache file and bumps the generation count. -/

/-- Shared state of two in-flight requests for one CacheKey. -/
structure FlightState where
  cached : Bool
  gens : Nat
  pc0 : Nat
  pc1 : Nat
  deriving DecidableEq, Repr

/-- One step of thread `t` (false = first thread, true = second):
the unsynchronized check-then-generate of `generate_preview_for_bscan`. -/
def threadStep (s : FlightState) (t : Bool) : FlightState :=
  if t then
    if s.pc1 = 0 then
      if s.cached then { s with pc1 := 2 } else { s with pc1 := 1 }
    else if s.pc1 = 1 then
      { s with pc1 := 2, cached := true, gens := s.gens + 1 }
    else s
  else
    if s.pc0 = 0 then
      if s.cached then { s with pc0 := 2 } else { s with pc0 := 1 }
    else if s.pc0 = 1 then
      { s with pc0 := 2, cached := true, gens := s.gens + 1 }
    else s

/-- Run a schedule (an interleaving) from a state. -/
def runSched (sched : List Bool) (s : FlightState) : FlightState :=
  match sched with
  | [] => s
  | t :: r => runSched r (threadStep s t)

/-- Both threads at the existence check, key uncached, nothing generated. -/
def flightInit : FlightState :=
  ⟨false, 0, 0, 0⟩

/-- Inductive invariant of the two-request machine. -/
def FlightInv (s : FlightState) : Prop :=
  (s.cached = true → 1 ≤ s.gens) ∧
  (s.pc0 = 2 → s.cached = true) ∧
  (s.pc1 = 2 → s.cached = true) ∧
  s.gens ≤ (if s.pc0 = 2 then 1 else 0) + (if s.pc1 = 2 then 1 else 0)

lemma flightInv_init : FlightInv flightInit := by
  simp [FlightInv, flightInit]

lemma flightInv_step (s : FlightState) (t : Bool) (h : FlightInv s) :
    FlightInv (threadStep s t) := by
  rcases h with ⟨h1, h2, h3, h4⟩
  cases t <;> unfold threadStep <;> split_ifs <;>
    constructor <;> simp_all <;> omega

lemma flightInv_run (sched : List Bool) (s : FlightState) (h : FlightInv s) :
    FlightInv (runSched sched s) := by
  induction sched generalizing s with
  | nil => exact h
  | cons t r ih => exact ih (threadStep s t) (flightInv_step s t h)

/-- C2 counterexample: in the interleaving where both requests pass the
cache-existence check before either generates, both of them run the full
generation pipeline — the completed run has two generations, not exactly
one, because no per-key lock separates the check from the generation. -/
theorem single_flight_counterexample :
    (runSched [false, true, false, true] flightInit).pc0 = 2 ∧
    (runSched [false, true, false, true] flightInit).pc1 = 2 ∧
    (runSched [false, true, false, true] flightInit).gens = 2 ∧
    ¬ (runSched [false, true, false, true] flightInit).gens = 1 := by
  decide

/-- C2 amended: the code takes no per-key lock, so two concurrent
`get_or_generate` calls for the same previously-uncached key may each run
the generation pipeline; in every interleaving in which both calls
complete, the cache ends populated and between one and two generations
(not necessarily exactly one) have run, while the fully serialized
interleaving performs exactly one. -/
theorem single_flight_amended (sched : List Bool)
    (h0 : (runSched sched flightInit).pc0 = 2)
    (h1 : (runSched sched flightInit).pc1 = 2) :
    (runSched sched flightInit).cached = true ∧
    1 ≤ (runSched sched flightInit).gens ∧
    (runSched sched flightInit).gens ≤ 2 ∧
    (runSched [false, false, true, true] flightInit).gens = 1 := by
  obtain ⟨hc, hp0, _hp1, hg⟩ := flightInv_run sched flightInit flightInv_init
  have hcached := hp0 h0
  refine ⟨hcached, hc hcached, ?_, by decide⟩
  rw [h0, h1] at hg
  simpa using hg

/-- Closed instance of the amended C2 statement at the racing
interleaving, its completion hypotheses discharged concretely. -/
theorem single_flight_amended_witness :
    (runSched [false, true, false, true] flightInit).cached = true ∧
    1 ≤ (runSched [false, true, false, true] flightInit).gens ∧
    (runSched [false, true, false, true] flightInit).gens ≤ 2 ∧
    (runSched [false, false, true, true] flightInit).gens = 1 :=
  single_flight_amended [false, true, false, true] (by decide) (by decide)

end RetinaTag
